import Mathlib

/-!
Shallow embedding of the trading-game core of this repository
(assets/js/game-single-file.js, the canonical final variant, whose market
primitives coincide with the exported market-logic module).  JavaScript
numbers are modelled as exact rationals; the transcendental Math.exp and
Math.pow are threaded as explicit function parameters, so every definition
stays computable and the algebraic structure of the code is preserved
verbatim.
-/

/-- JavaScript Math.sign, restricted to finite numbers. -/
def jsSign (x : ℚ) : ℚ :=
  if 0 < x then 1 else if x < 0 then -1 else 0

/-- JavaScript Math.round for finite numbers: round half toward plus infinity. -/
def jsRound (x : ℚ) : ℚ :=
  ((⌊x + 1/2⌋ : ℤ) : ℚ)

/-- LinearSpread.valueFor (game-single-file.js lines 92..100).  The class
keeps an append-only zetaHistory; the embedding passes the history in and
returns the pair of the friction cost and the updated history.  The
side effect of pushing newZeta happens on every call, before any caller
validates the trade. -/
def valueFor (ex : ℚ → ℚ) (hist : List ℚ) (action depth resilience : ℚ) :
    ℚ × List ℚ :=
  let prevZeta := hist.getLastD 0
  let newZeta := ex (-resilience) * prevZeta + 1 / max (1/10) depth * |action|
  (newZeta * |action|, hist ++ [newZeta])

/-- executeTrade (lines 103..106): cash change of a trade. -/
def executeTrade (action price frictionCost : ℚ) : ℚ :=
  -action * price - frictionCost

/-- calculateWealth (lines 108..110): mark-to-market wealth. -/
def calculateWealth (cash inventory price : ℚ) : ℚ :=
  cash + inventory * price

/-- validateTrade (lines 112..119): Rule A, post-trade wealth must be
nonnegative. -/
def validateTrade (currentCash currentInventory action price frictionCost : ℚ) :
    Bool :=
  let cashChange := executeTrade action price frictionCost
  let newCash := currentCash + cashChange
  let newInventory := currentInventory + action
  let newWealth := calculateWealth newCash newInventory price
  decide (newWealth ≥ 0)

/-- calculateAIAction (lines 121..129), with Math.pow passed explicitly. -/
def calculateAIAction (pw : ℚ → ℚ → ℚ)
    (priceDeviation depth c0 depthExponent threshold : ℚ) : ℚ :=
  let rawAction := -c0 * priceDeviation * pw (1 - 1/depth) depthExponent
  if |rawAction| ≥ threshold then jsSign rawAction else 0

/-- calculateLiquidationRate (lines 131..134). -/
def calculateLiquidationRate (inventory liquidationPeriod : ℚ) : ℚ :=
  if liquidationPeriod ≤ 0 then 0 else -inventory / liquidationPeriod

/-- calculateLiquidationAction (lines 136..147). -/
def calculateLiquidationAction
    (initialInventory currentInventory rate stepsElapsed : ℚ) : ℚ :=
  let targetInventory := initialInventory + rate * stepsElapsed
  let desiredAction := jsRound (targetInventory - currentInventory)
  if desiredAction = 0 then 0
  else if currentInventory ≠ 0 ∧
      jsSign currentInventory ≠ jsSign (currentInventory + desiredAction) then
    -currentInventory
  else desiredAction

/-- A concrete stand-in for Math.pow at the points the AI policy reaches
with depth 1: the ECMAScript specification mandates pow(x, 0) = 1 and
pow(0, e) = 0 for e > 0, and this function satisfies both clauses. -/
def powZeroBase (_b e : ℚ) : ℚ :=
  if e = 0 then 1 else 0

/-- One recorded trade (the objects pushed onto playerTrades / aiTrades in
game-single-file.js). -/
structure TradeRec where
  candleIndex : ℤ
  action : ℚ
  time : ℤ
  zetaTime : ℤ
deriving DecidableEq

/-- The session state created by createGameState (lines 238..282).  The
three trajectory arrays are modelled as total functions on the integer
index, matching the contiguous 0..T layout the loader guarantees; the two
LinearSpread instances are their zetaHistory lists. -/
structure GameState where
  currentTime : ℤ
  currentZetaTime : ℤ
  lastTradeZetaTime : ℤ
  terminalTime : ℤ
  assetPrice : ℤ → ℚ
  depthSeries : ℤ → ℚ
  resilienceSeries : ℤ → ℚ
  zetaSeries : List ℚ
  currentPrice : ℚ
  currentDepth : ℚ
  currentResilience : ℚ
  cash : ℚ
  inventory : ℚ
  pnl : ℚ
  playerTrades : List TradeRec
  linearSpread : List ℚ
  aiCash : ℚ
  aiInventory : ℚ
  aiPnl : ℚ
  aiTrades : List TradeRec
  aiLinearSpread : List ℚ
  liquidationStartTime : ℤ
  isInLiquidationPhase : Bool
  playerInventoryAtLiquidationStart : ℚ
  aiInventoryAtLiquidationStart : ℚ
  playerLiquidationRate : ℚ
  aiLiquidationRate : ℚ
  liquidationStepsElapsed : ℤ
  isRunning : Bool
  isGameOver : Bool
  gameOverReason : String

/-- updateFromTime (lines 316..322) followed by recomputePnL (lines
324..326). -/
def updateFromTime (s : GameState) : GameState :=
  let idx := min s.currentTime s.terminalTime
  let s := { s with
    currentPrice := s.assetPrice idx,
    currentDepth := s.depthSeries idx,
    currentResilience := s.resilienceSeries idx }
  { s with pnl := s.inventory * s.currentPrice + s.cash }

/-- executePlayerTrade (lines 373..442).  Returns the pair of the boolean
outcome and the resulting state.  Note that linearSpread.valueFor runs and
pushes its new zeta before validateTrade is consulted, so the history
update survives a validation rejection.  CONFIG.pointsPerCandle = 10 and
CONFIG.minZetaStepsBetweenTrades = 1 are inlined, and
CONFIG.zetaStepsPerMarketStep = 4 divides the resilience in the zetaSeries
update on line 423. -/
def executePlayerTrade (ex : ℚ → ℚ) (s : GameState) (action : ℚ) :
    Bool × GameState :=
  if s.isGameOver || !s.isRunning then (false, s)
  else if s.currentZetaTime - s.lastTradeZetaTime < 1 then (false, s)
  else
    let currentCandleIndex := Int.fdiv s.currentTime 10
    let depth := s.currentDepth
    let resilience := s.currentResilience
    let fh := valueFor ex s.linearSpread action depth resilience
    let frictionCost := fh.1
    let s := { s with linearSpread := fh.2 }
    if !validateTrade s.cash s.inventory action s.currentPrice frictionCost then
      (false, s)
    else
      let cashChange := executeTrade action s.currentPrice frictionCost
      let s := { s with
        cash := s.cash + cashChange,
        inventory := s.inventory + action,
        currentZetaTime := s.currentZetaTime + 1 }
      let s := { s with
        playerTrades := s.playerTrades ++
          [(⟨currentCandleIndex, action, s.currentTime, s.currentZetaTime⟩ : TradeRec)],
        lastTradeZetaTime := s.currentZetaTime }
      let prevZeta := s.zetaSeries.getLastD 0
      let newZeta := ex (-(resilience / 4)) * prevZeta +
        1 / max (1/10) depth * |action|
      let s := { s with zetaSeries := s.zetaSeries ++ [newZeta] }
      let s := { s with pnl := calculateWealth s.cash s.inventory s.currentPrice }
      if s.pnl ≤ 0 then
        (true, { s with isRunning := false, isGameOver := true,
                        gameOverReason := "broke" })
      else (true, s)

/-- executeAITradeAction (lines 466..488).  As for the player, the AI
spread history is pushed before validation. -/
def executeAITradeAction (ex : ℚ → ℚ) (s : GameState) (action : ℚ)
    (candleIndex : ℤ) : GameState :=
  let fh := valueFor ex s.aiLinearSpread action s.currentDepth s.currentResilience
  let frictionCost := fh.1
  let s := { s with aiLinearSpread := fh.2 }
  if !validateTrade s.aiCash s.aiInventory action s.currentPrice frictionCost then
    s
  else
    let cashChange := executeTrade action s.currentPrice frictionCost
    let s := { s with
      aiCash := s.aiCash + cashChange,
      aiInventory := s.aiInventory + action }
    let s := { s with
      aiPnl := calculateWealth s.aiCash s.aiInventory s.currentPrice }
    { s with aiTrades := s.aiTrades ++
        [(⟨candleIndex, action, s.currentTime, s.currentZetaTime⟩ : TradeRec)] }

/-- processAITrade (lines 444..464).  CONFIG.aiAgent is enabled with
c0 = 1.88, depthExponent = 1/3, actionThreshold = 0.5. -/
def processAITrade (ex : ℚ → ℚ) (pw : ℚ → ℚ → ℚ) (s : GameState) : GameState :=
  let currentCandleIndex := Int.fdiv s.currentTime 10
  if s.aiTrades.any (fun t => t.candleIndex = currentCandleIndex) then s
  else
    let priceDeviation := s.assetPrice s.currentTime
    let action := calculateAIAction pw priceDeviation s.currentDepth
      (47/25) (1/3) (1/2)
    if action ≠ 0 then executeAITradeAction ex s action currentCandleIndex
    else s

/-- checkLiquidationEntry (lines 490..509). -/
def checkLiquidationEntry (s : GameState) : GameState :=
  if s.liquidationStartTime ≤ s.currentTime && !s.isInLiquidationPhase then
    let s := { s with
      isInLiquidationPhase := true,
      playerInventoryAtLiquidationStart := s.inventory,
      aiInventoryAtLiquidationStart := s.aiInventory }
    let liquidationPeriod := s.terminalTime - s.liquidationStartTime
    if 0 < liquidationPeriod then
      { s with
        playerLiquidationRate := calculateLiquidationRate
          s.playerInventoryAtLiquidationStart (liquidationPeriod : ℚ),
        aiLiquidationRate := calculateLiquidationRate
          s.aiInventoryAtLiquidationStart (liquidationPeriod : ℚ) }
    else s
  else s

/-- The participant tag of executeLiquidationTrade. -/
inductive Participant where
  | player : Participant
  | ai : Participant

/-- executeLiquidationTrade (lines 542..583).  Liquidation trades bypass
validateTrade; the player branch also appends to zetaSeries using the full
resilience decay (line 562). -/
def executeLiquidationTrade (ex : ℚ → ℚ) (s : GameState) (action : ℚ)
    (candleIndex : ℤ) : Participant → GameState
  | .player =>
    let fh := valueFor ex s.linearSpread action s.currentDepth s.currentResilience
    let cashChange := executeTrade action s.currentPrice fh.1
    let s := { s with
      linearSpread := fh.2,
      cash := s.cash + cashChange,
      inventory := s.inventory + action }
    let s := { s with
      playerTrades := s.playerTrades ++
        [(⟨candleIndex, action, s.currentTime, s.currentZetaTime⟩ : TradeRec)],
      pnl := calculateWealth s.cash s.inventory s.currentPrice }
    let prevZeta := s.zetaSeries.getLastD 0
    let newZeta := ex (-s.currentResilience) * prevZeta +
      1 / max (1/10) s.currentDepth * |action|
    { s with zetaSeries := s.zetaSeries ++ [newZeta] }
  | .ai =>
    let fh := valueFor ex s.aiLinearSpread action s.currentDepth s.currentResilience
    let cashChange := executeTrade action s.currentPrice fh.1
    let s := { s with
      aiLinearSpread := fh.2,
      aiCash := s.aiCash + cashChange,
      aiInventory := s.aiInventory + action }
    { s with
      aiTrades := s.aiTrades ++
        [(⟨candleIndex, action, s.currentTime, s.currentZetaTime⟩ : TradeRec)],
      aiPnl := calculateWealth s.aiCash s.aiInventory s.currentPrice }

/-- processLiquidation (lines 511..540). -/
def processLiquidation (ex : ℚ → ℚ) (s : GameState) : GameState :=
  let currentCandleIndex := Int.fdiv s.currentTime 10
  let s := { s with liquidationStepsElapsed := s.liquidationStepsElapsed + 1 }
  let s :=
    if s.playerInventoryAtLiquidationStart ≠ 0 ∧ s.inventory ≠ 0 then
      let action := calculateLiquidationAction
        s.playerInventoryAtLiquidationStart s.inventory
        s.playerLiquidationRate (s.liquidationStepsElapsed : ℚ)
      if action ≠ 0 then
        executeLiquidationTrade ex s action currentCandleIndex .player
      else s
    else s
  if s.aiInventoryAtLiquidationStart ≠ 0 ∧ s.aiInventory ≠ 0 then
    let action := calculateLiquidationAction
      s.aiInventoryAtLiquidationStart s.aiInventory
      s.aiLiquidationRate (s.liquidationStepsElapsed : ℚ)
    if action ≠ 0 then
      executeLiquidationTrade ex s action currentCandleIndex .ai
    else s
  else s

/-- checkGameOver (lines 585..605): the boolean result paired with the
state after any terminal flags are set. -/
def checkGameOver (s : GameState) : Bool × GameState :=
  let currentWealth := calculateWealth s.cash s.inventory s.currentPrice
  if currentWealth ≤ 0 then
    (true, { s with isRunning := false, isGameOver := true,
                    gameOverReason := "broke" })
  else if s.terminalTime ≤ s.currentTime then
    (true, { s with isRunning := false, isGameOver := true,
                    gameOverReason := "time_up" })
  else (false, s)

/-- The zeta catch-up loop of advanceTime (lines 619..626), driven by the
number of missing micro steps as fuel; the loop body appends one decayed
zeta per micro tick using resilience / zetaStepsPerMarketStep. -/
def zetaCatchUp (ex : ℚ → ℚ) (s : GameState) : Nat → GameState
  | 0 => s
  | n + 1 =>
    let prevZeta := s.zetaSeries.getLastD 0
    let decayedZeta := prevZeta * ex (-(s.currentResilience / 4))
    zetaCatchUp ex
      { s with
        currentZetaTime := s.currentZetaTime + 1,
        zetaSeries := s.zetaSeries ++ [decayedZeta] } n

/-- advanceTime (lines 607..637).  The while loop runs exactly
(targetZetaTime - currentZetaTime) iterations when that count is positive,
which the fuel argument of zetaCatchUp reproduces. -/
def advanceTime (ex : ℚ → ℚ) (pw : ℚ → ℚ → ℚ) (s : GameState) : GameState :=
  if s.terminalTime ≤ s.currentTime || s.isGameOver then s
  else
    let s := { s with currentTime := s.currentTime + 1 }
    let s := updateFromTime s
    let targetZetaTime := s.currentTime * 4
    let s := zetaCatchUp ex s (targetZetaTime - s.currentZetaTime).toNat
    let s := checkLiquidationEntry s
    let s := if s.isInLiquidationPhase then processLiquidation ex s
             else processAITrade ex pw s
    (checkGameOver s).2

/-- One externally triggered session operation: a timer tick or a player
trade request. -/
inductive GameOp where
  | advance : GameOp
  | trade : ℚ → GameOp

/-- Run a sequence of session operations left to right. -/
def runOps (ex : ℚ → ℚ) (pw : ℚ → ℚ → ℚ) (s : GameState) :
    List GameOp → GameState
  | [] => s
  | GameOp.advance :: ops => runOps ex pw (advanceTime ex pw s) ops
  | GameOp.trade a :: ops => runOps ex pw (executePlayerTrade ex s a).2 ops

/-- A running accumulation-phase session whose player holds no cash, used
to exercise the validation-rejection path of executePlayerTrade. -/
def sReject : GameState where
  currentTime := 0
  currentZetaTime := 0
  lastTradeZetaTime := -999
  terminalTime := 50
  assetPrice := fun _ => 100
  depthSeries := fun _ => 5
  resilienceSeries := fun _ => 0
  zetaSeries := [0]
  currentPrice := 100
  currentDepth := 5
  currentResilience := 0
  cash := 0
  inventory := 0
  pnl := 0
  playerTrades := []
  linearSpread := [0]
  aiCash := 100
  aiInventory := 0
  aiPnl := 100
  aiTrades := []
  aiLinearSpread := [0]
  liquidationStartTime := 40
  isInLiquidationPhase := false
  playerInventoryAtLiquidationStart := 0
  aiInventoryAtLiquidationStart := 0
  playerLiquidationRate := 0
  aiLiquidationRate := 0
  liquidationStepsElapsed := 0
  isRunning := true
  isGameOver := false
  gameOverReason := ""

/-- A running accumulation-phase session with ample cash, nonzero prior
zeta and nonzero resilience, on which a unit buy is accepted. -/
def sAccept : GameState :=
  { sReject with
    cash := 100,
    assetPrice := fun _ => 1,
    depthSeries := fun _ => 1,
    resilienceSeries := fun _ => 4,
    currentPrice := 1,
    currentDepth := 1,
    currentResilience := 4,
    zetaSeries := [1] }

/-- A running session already in the liquidation phase, on which a unit
buy is nevertheless accepted by executePlayerTrade. -/
def sLiqPhase : GameState :=
  { sReject with
    cash := 100,
    currentTime := 45,
    currentZetaTime := 180,
    liquidationStartTime := 40,
    isInLiquidationPhase := true,
    liquidationStepsElapsed := 5,
    assetPrice := fun _ => 1,
    depthSeries := fun _ => 1,
    resilienceSeries := fun _ => 0,
    currentPrice := 1,
    currentDepth := 1,
    currentResilience := 0 }

/-- C5: valueFor appends the new zeta
exp(-resilience) * prevZeta + (1 / max(0.1, depth)) * |action| to the
history and returns newZeta * |action|; executeTrade returns
-action * price - frictionCost; and in the concrete scenario depth = 5,
resilience = 0, action = 1, price = 100, prior zeta = 0 the new zeta is
0.2, the friction cost is 0.2 and the cash change is -100.2. -/
theorem valueFor_executeTrade_spec :
    ∀ ex : ℚ → ℚ,
      (∀ (hist : List ℚ) (a d r : ℚ),
        (valueFor ex hist a d r).2 =
          hist ++ [ex (-r) * hist.getLastD 0 + 1 / max (1/10) d * |a|] ∧
        (valueFor ex hist a d r).1 =
          (ex (-r) * hist.getLastD 0 + 1 / max (1/10) d * |a|) * |a|) ∧
      (∀ a p f : ℚ, executeTrade a p f = -a * p - f) ∧
      (valueFor ex [0] 1 5 0).2 = [0, 1/5] ∧
      (valueFor ex [0] 1 5 0).1 = 1/5 ∧
      executeTrade 1 100 (1/5) = -(501/5) := by
  intro ex
  refine ⟨fun hist a d r => ⟨rfl, rfl⟩, fun a p f => rfl, ?_, ?_, ?_⟩
  · norm_num [valueFor]
  · norm_num [valueFor]
  · norm_num [executeTrade]

/-- C6: for nonzero current inventory, the action returned by
calculateLiquidationAction never crosses through zero: afterwards the
inventory keeps its sign or is exactly zero. -/
theorem liquidation_no_overshoot (I0 cur rate steps : ℚ) (h : cur ≠ 0) :
    jsSign (cur + calculateLiquidationAction I0 cur rate steps) = jsSign cur ∨
    cur + calculateLiquidationAction I0 cur rate steps = 0 := by
  simp only [calculateLiquidationAction]
  split
  · left
    rw [add_zero]
  · split
    · right
      ring
    · next hg =>
      left
      rw [not_and_or] at hg
      rcases hg with hg | hg
      · exact absurd h (by simpa using hg)
      · rw [not_not] at hg
        exact hg.symm

/-- C6 witness: at the spec scenario step (initial inventory 10, current
inventory 10, rate -2, one step elapsed) the guarded property holds. -/
theorem liquidation_no_overshoot_witness :
    (10 : ℚ) ≠ 0 ∧
    (jsSign ((10 : ℚ) + calculateLiquidationAction 10 10 (-2) 1) = jsSign 10 ∨
     (10 : ℚ) + calculateLiquidationAction 10 10 (-2) 1 = 0) :=
  ⟨by norm_num, liquidation_no_overshoot 10 10 (-2) 1 (by norm_num)⟩

/-- C7 counterexample: the claim quantifies over every depthExponent, but
with depthExponent = 0 the ECMAScript-mandated pow(0, 0) = 1 makes the
depth-1 base contribute a factor 1, and the policy returns -1 instead of
0 at priceDeviation = 1, c0 = 1, threshold = 1/2. -/
theorem ai_depth_one_zero_action_cex :
    ¬ (∀ pw : ℚ → ℚ → ℚ,
        (∀ b : ℚ, pw b 0 = 1) → (∀ e : ℚ, 0 < e → pw 0 e = 0) →
        ∀ pd c0 de th : ℚ, calculateAIAction pw pd 1 c0 de th = 0) := by
  intro h
  have h1 := h powZeroBase (fun b => by simp [powZeroBase])
    (fun e he => by simp [powZeroBase, ne_of_gt he]) 1 1 0 (1/2)
  norm_num [calculateAIAction, powZeroBase, jsSign] at h1

/-- C7 amended: for depth 1 and every positive depthExponent (the shipped
configuration uses 1/3), calculateAIAction returns 0, because the base
1 - 1/depth is 0 and pow(0, e) = 0 for e > 0; the computation is total
and never raises. -/
theorem ai_depth_one_zero_action :
    ∀ pw : ℚ → ℚ → ℚ, (∀ e : ℚ, 0 < e → pw 0 e = 0) →
    ∀ pd c0 de th : ℚ, 0 < de → calculateAIAction pw pd 1 c0 de th = 0 := by
  intro pw hpw pd c0 de th hde
  simp only [calculateAIAction]
  have h1 : (1 : ℚ) - 1/1 = 0 := by norm_num
  rw [h1, hpw de hde, mul_zero]
  simp [jsSign]

/-- C7 witness: the amended statement at the shipped configuration
(c0 = 1.88, depthExponent = 1/3, threshold = 0.5) and priceDeviation 7. -/
theorem ai_depth_one_zero_action_witness :
    (∀ e : ℚ, 0 < e → powZeroBase 0 e = 0) ∧ (0 : ℚ) < 1/3 ∧
    calculateAIAction powZeroBase 7 1 (47/25) (1/3) (1/2) = 0 :=
  ⟨fun e he => by simp [powZeroBase, ne_of_gt he], by norm_num,
   ai_depth_one_zero_action powZeroBase
     (fun e he => by simp [powZeroBase, ne_of_gt he]) 7 (47/25) (1/3) (1/2)
     (by norm_num)⟩

/-- C8: calculateLiquidationRate returns -I0 / period for a positive
period and 0 for a nonpositive one, so the division-by-zero branch is
unreachable; entering the liquidation phase with a nonpositive remaining
period leaves both liquidation rates untouched, and with a zero rate and
an inventory still at its snapshot the per-step liquidation action is 0,
so no automated liquidation trades are scheduled. -/
theorem liquidation_rate_guard :
    (∀ I p : ℚ, p ≤ 0 → calculateLiquidationRate I p = 0) ∧
    (∀ I p : ℚ, 0 < p → calculateLiquidationRate I p = -I / p) ∧
    (∀ s : GameState, s.terminalTime - s.liquidationStartTime ≤ 0 →
      (checkLiquidationEntry s).playerLiquidationRate = s.playerLiquidationRate ∧
      (checkLiquidationEntry s).aiLiquidationRate = s.aiLiquidationRate) ∧
    (∀ I0 steps : ℚ, calculateLiquidationAction I0 I0 0 steps = 0) := by
  refine ⟨?_, ?_, ?_, ?_⟩
  · intro I p hp
    simp [calculateLiquidationRate, hp]
  · intro I p hp
    simp [calculateLiquidationRate, not_le.mpr hp]
  · intro s hs
    simp only [checkLiquidationEntry]
    split
    · split
      · next hper => exact absurd hper (by omega)
      · exact ⟨rfl, rfl⟩
    · exact ⟨rfl, rfl⟩
  · intro I0 steps
    norm_num [calculateLiquidationAction, jsRound]

/-- C8 witness: the four guarded components at concrete inputs, with a
session whose liquidation window is empty. -/
theorem liquidation_rate_guard_witness :
    ((-3 : ℚ) ≤ 0 ∧ calculateLiquidationRate 10 (-3) = 0) ∧
    ((0 : ℚ) < 5 ∧ calculateLiquidationRate 10 5 = -10 / 5) ∧
    (({ sReject with terminalTime := 40 } : GameState).terminalTime -
        ({ sReject with terminalTime := 40 } : GameState).liquidationStartTime ≤ 0 ∧
      (checkLiquidationEntry { sReject with terminalTime := 40 }).playerLiquidationRate =
        ({ sReject with terminalTime := 40 } : GameState).playerLiquidationRate ∧
      (checkLiquidationEntry { sReject with terminalTime := 40 }).aiLiquidationRate =
        ({ sReject with terminalTime := 40 } : GameState).aiLiquidationRate) ∧
    calculateLiquidationAction 7 7 0 2 = 0 := by
  refine ⟨⟨by norm_num, liquidation_rate_guard.1 10 (-3) (by norm_num)⟩,
          ⟨by norm_num, liquidation_rate_guard.2.1 10 5 (by norm_num)⟩,
          ⟨?_, ?_⟩, liquidation_rate_guard.2.2.2 7 2⟩
  · norm_num [sReject]
  · have := liquidation_rate_guard.2.2.1 { sReject with terminalTime := 40 }
      (by norm_num [sReject])
    exact this

/-- C10: checkGameOver reads only the player account, the current price
and the clock; two states differing only in the AI fields (aiCash,
aiInventory, aiPnl, aiTrades, aiLinearSpread) yield the same boolean
result and the same isGameOver, isRunning and gameOverReason, so the AI
account never ends the session. -/
theorem gameOver_ai_independent :
    ∀ (s : GameState) (c i p : ℚ) (tr : List TradeRec) (ls : List ℚ),
      (checkGameOver { s with aiCash := c, aiInventory := i, aiPnl := p,
                              aiTrades := tr, aiLinearSpread := ls }).1 =
        (checkGameOver s).1 ∧
      (checkGameOver { s with aiCash := c, aiInventory := i, aiPnl := p,
                              aiTrades := tr, aiLinearSpread := ls }).2.isGameOver =
        (checkGameOver s).2.isGameOver ∧
      (checkGameOver { s with aiCash := c, aiInventory := i, aiPnl := p,
                              aiTrades := tr, aiLinearSpread := ls }).2.isRunning =
        (checkGameOver s).2.isRunning ∧
      (checkGameOver { s with aiCash := c, aiInventory := i, aiPnl := p,
                              aiTrades := tr, aiLinearSpread := ls }).2.gameOverReason =
        (checkGameOver s).2.gameOverReason := by
  intro s c i p tr ls
  by_cases h1 : s.cash + s.inventory * s.currentPrice ≤ 0 <;>
    by_cases h2 : s.terminalTime ≤ s.currentTime <;>
    simp [checkGameOver, calculateWealth, h1, h2]

/-- C4: validateTrade accepts exactly when the hypothetical post-trade
wealth (cash - action*price - frictionCost) + (inventory + action)*price
is nonnegative, and every committed trade (player or AI) leaves the
participant with nonnegative mark-to-market wealth. -/
theorem accepted_trade_wealth_nonneg :
    (∀ c i a p f : ℚ, validateTrade c i a p f = true ↔
      0 ≤ c - a * p - f + (i + a) * p) ∧
    (∀ (ex : ℚ → ℚ) (s : GameState) (a : ℚ) (s' : GameState),
      executePlayerTrade ex s a = (true, s') →
      0 ≤ calculateWealth s'.cash s'.inventory s'.currentPrice) ∧
    (∀ (ex : ℚ → ℚ) (s : GameState) (a : ℚ) (ci : ℤ),
      validateTrade s.aiCash s.aiInventory a s.currentPrice
        (valueFor ex s.aiLinearSpread a s.currentDepth s.currentResilience).1 =
        true →
      0 ≤ calculateWealth (executeAITradeAction ex s a ci).aiCash
        (executeAITradeAction ex s a ci).aiInventory
        (executeAITradeAction ex s a ci).currentPrice) := by
  have hval : ∀ c i a p f : ℚ, validateTrade c i a p f = true ↔
      0 ≤ c - a * p - f + (i + a) * p := by
    intro c i a p f
    simp only [validateTrade, executeTrade, calculateWealth,
      decide_eq_true_eq, ge_iff_le]
    constructor <;> intro h <;> linarith
  refine ⟨hval, ?_, ?_⟩
  · intro ex s a s' h
    simp only [executePlayerTrade] at h
    split at h
    · simp at h
    · split at h
      · simp at h
      · split at h
        · simp at h
        · next hv =>
          simp only [Bool.not_eq_true', Bool.not_eq_false] at hv
          rw [hval] at hv
          split at h <;>
          · rw [Prod.mk.injEq] at h
            rw [← h.2]
            simp only [calculateWealth, executeTrade]
            linarith
  · intro ex s a ci h
    simp only [executeAITradeAction]
    split
    · next hv =>
      simp only [Bool.not_eq_true', Bool.not_eq_false] at hv
      rw [h] at hv
      simp at hv
    · rw [hval] at h
      simp only [calculateWealth, executeTrade]
      linarith

/-- C4 witness: a concrete accepted unit buy by the player, and a
concrete accepted AI trade, both ending with nonnegative wealth. -/
theorem accepted_trade_wealth_nonneg_witness :
    (validateTrade 100 0 1 100 (1/5) = true ↔
      0 ≤ (100 : ℚ) - 1 * 100 - 1/5 + (0 + 1) * 100) ∧
    (executePlayerTrade (fun x => 1 + x) sAccept 1 =
      (true, (executePlayerTrade (fun x => 1 + x) sAccept 1).2) ∧
     0 ≤ calculateWealth (executePlayerTrade (fun x => 1 + x) sAccept 1).2.cash
       (executePlayerTrade (fun x => 1 + x) sAccept 1).2.inventory
       (executePlayerTrade (fun x => 1 + x) sAccept 1).2.currentPrice) ∧
    (validateTrade sAccept.aiCash sAccept.aiInventory 1 sAccept.currentPrice
        (valueFor (fun x => 1 + x) sAccept.aiLinearSpread 1 sAccept.currentDepth
          sAccept.currentResilience).1 = true ∧
     0 ≤ calculateWealth
       (executeAITradeAction (fun x => 1 + x) sAccept 1 0).aiCash
       (executeAITradeAction (fun x => 1 + x) sAccept 1 0).aiInventory
       (executeAITradeAction (fun x => 1 + x) sAccept 1 0).currentPrice) := by
  have hp : executePlayerTrade (fun x => 1 + x) sAccept 1 =
      (true, (executePlayerTrade (fun x => 1 + x) sAccept 1).2) := by
    have h1 : (executePlayerTrade (fun x => 1 + x) sAccept 1).1 = true := by
      norm_num [executePlayerTrade, sAccept, sReject, valueFor, validateTrade,
        executeTrade, calculateWealth]
    rw [← h1]
  have hai : validateTrade sAccept.aiCash sAccept.aiInventory 1
      sAccept.currentPrice
      (valueFor (fun x => 1 + x) sAccept.aiLinearSpread 1 sAccept.currentDepth
        sAccept.currentResilience).1 = true := by
    norm_num [sAccept, sReject, valueFor, validateTrade, executeTrade,
      calculateWealth]
  exact ⟨accepted_trade_wealth_nonneg.1 100 0 1 100 (1/5),
    ⟨hp, accepted_trade_wealth_nonneg.2.1 (fun x => 1 + x) sAccept 1 _ hp⟩,
    ⟨hai, accepted_trade_wealth_nonneg.2.2 (fun x => 1 + x) sAccept 1 0 hai⟩⟩

/-- C1 counterexample: executePlayerTrade pushes the new zeta onto the
LinearSpread history before validating, so a validation-rejected trade
does not leave the friction state unchanged: at sReject (no cash) a unit
buy is rejected yet zetaHistory grows from [0] to [0, 1/5]. -/
theorem rejected_trade_pure_cex :
    ¬ (∀ (ex : ℚ → ℚ) (s : GameState) (a : ℚ) (s' : GameState),
        executePlayerTrade ex s a = (false, s') →
        s'.cash = s.cash ∧ s'.inventory = s.inventory ∧
        s'.linearSpread = s.linearSpread ∧ s'.zetaSeries = s.zetaSeries) := by
  intro h
  have h1 : (executePlayerTrade (fun x : ℚ => 1 + x) sReject 1).1 = false := by
    norm_num [executePlayerTrade, sReject, valueFor, validateTrade,
      executeTrade, calculateWealth]
  have hp : executePlayerTrade (fun x : ℚ => 1 + x) sReject 1 =
      (false, (executePlayerTrade (fun x : ℚ => 1 + x) sReject 1).2) := by
    rw [← h1]
  have h2 := (h (fun x : ℚ => 1 + x) sReject 1 _ hp).2.2.1
  have h3 : (executePlayerTrade (fun x : ℚ => 1 + x) sReject 1).2.linearSpread =
      [0, 1/5] := by
    norm_num [executePlayerTrade, sReject, valueFor, validateTrade,
      executeTrade, calculateWealth]
  rw [h3] at h2
  norm_num [sReject] at h2

/-- C1 amended: a trade rejected because the game is over or the session
is not running, or rejected by the micro-time rate limit, returns the
session state completely unchanged; a trade rejected by validation
returns the state with every field unchanged (in particular cash,
inventory and zetaSeries) except that the LinearSpread zetaHistory has
exactly the one value appended by the pre-validation valueFor call. -/
theorem rejected_trade_effects :
    ∀ (ex : ℚ → ℚ) (s : GameState) (a : ℚ),
      ((s.isGameOver = true ∨ s.isRunning = false) →
        executePlayerTrade ex s a = (false, s)) ∧
      (s.isGameOver = false → s.isRunning = true →
        s.currentZetaTime - s.lastTradeZetaTime < 1 →
        executePlayerTrade ex s a = (false, s)) ∧
      (s.isGameOver = false → s.isRunning = true →
        ¬ s.currentZetaTime - s.lastTradeZetaTime < 1 →
        validateTrade s.cash s.inventory a s.currentPrice
          (valueFor ex s.linearSpread a s.currentDepth s.currentResilience).1 =
          false →
        executePlayerTrade ex s a =
          (false, { s with linearSpread := s.linearSpread ++
            [ex (-s.currentResilience) * s.linearSpread.getLastD 0 +
             1 / max (1/10) s.currentDepth * |a|] })) := by
  intro ex s a
  refine ⟨?_, ?_, ?_⟩
  · intro h
    rcases h with h | h <;> simp [executePlayerTrade, h]
  · intro hgo hrun hrl
    simp [executePlayerTrade, hgo, hrun, hrl]
  · intro hgo hrun hrl hv
    have hv2 : validateTrade s.cash s.inventory a s.currentPrice
        ((ex (-s.currentResilience) * s.linearSpread.getLastD 0 +
          1 / max (1/10) s.currentDepth * |a|) * |a|) = false := by
      simpa [valueFor] using hv
    simp [executePlayerTrade, hgo, hrun, hrl, hv2, valueFor]
    intro hcontra
    simp only [List.getLastD_eq_getLast?, one_div] at hv2
    simp [hv2] at hcontra

/-- C1 witness: the three rejection paths exercised concretely: a
stopped session and a rate-limited session are returned untouched, and
the cash-less session sReject, whose unit buy fails validation, is
returned with exactly 1/5 appended to its spread history. -/
theorem rejected_trade_effects_witness :
    executePlayerTrade (fun x : ℚ => 1 + x) { sReject with isRunning := false } 1 =
      (false, { sReject with isRunning := false }) ∧
    executePlayerTrade (fun x : ℚ => 1 + x) { sReject with lastTradeZetaTime := 0 } 1 =
      (false, { sReject with lastTradeZetaTime := 0 }) ∧
    executePlayerTrade (fun x : ℚ => 1 + x) sReject 1 =
      (false, { sReject with linearSpread := sReject.linearSpread ++
        [(fun x : ℚ => 1 + x) (-sReject.currentResilience) *
           sReject.linearSpread.getLastD 0 +
         1 / max (1/10) sReject.currentDepth * |(1 : ℚ)|] }) := by
  refine ⟨?_, ?_, ?_⟩
  · exact (rejected_trade_effects (fun x : ℚ => 1 + x)
      { sReject with isRunning := false } 1).1 (Or.inr rfl)
  · exact (rejected_trade_effects (fun x : ℚ => 1 + x)
      { sReject with lastTradeZetaTime := 0 } 1).2.1 rfl rfl
      (by norm_num [sReject])
  · exact (rejected_trade_effects (fun x : ℚ => 1 + x) sReject 1).2.2 rfl rfl
      (by norm_num [sReject])
      (by norm_num [sReject, validateTrade, valueFor, executeTrade,
        calculateWealth])

/-- C2 counterexample: for any strictly monotone decay function with
value 1 at 0 (properties of the real exponential), the zeta value the
code appends on an accepted trade disagrees with the claimed
full-resilience decay: at sAccept (resilience 4, prior zeta 1) the code
appends exp(-1) * 1 + 1 while the claim demands exp(-4) * 1 + 1. -/
theorem accepted_trade_zeta_full_decay_cex :
    ¬ (∀ ex : ℚ → ℚ, StrictMono ex → ex 0 = 1 →
        ∀ (s : GameState) (a : ℚ) (s' : GameState),
          executePlayerTrade ex s a = (true, s') →
          s'.zetaSeries = s.zetaSeries ++
            [ex (-s.currentResilience) * s.zetaSeries.getLastD 0 +
             1 / max (1/10) s.currentDepth * |a|]) := by
  intro h
  have hm : StrictMono (fun x : ℚ => 1 + x) := fun a b hab => by simpa
  have h1 : (executePlayerTrade (fun x : ℚ => 1 + x) sAccept 1).1 = true := by
    norm_num [executePlayerTrade, sAccept, sReject, valueFor, validateTrade,
      executeTrade, calculateWealth]
  have hp : executePlayerTrade (fun x : ℚ => 1 + x) sAccept 1 =
      (true, (executePlayerTrade (fun x : ℚ => 1 + x) sAccept 1).2) := by
    rw [← h1]
  have hz := h (fun x : ℚ => 1 + x) hm (by norm_num) sAccept 1 _ hp
  have h2 : (executePlayerTrade (fun x : ℚ => 1 + x) sAccept 1).2.zetaSeries =
      [1, 1] := by
    norm_num [executePlayerTrade, sAccept, sReject, valueFor, validateTrade,
      executeTrade, calculateWealth]
  rw [h2] at hz
  norm_num [sAccept, sReject] at hz

/-- C2 amended: on every accepted player trade the zeta value appended to
the session zetaSeries is
exp(-(resilience / zetaStepsPerMarketStep)) * prevZeta
  + (1 / max(0.1, depth)) * |action|,
with the resilience decay divided by the number of micro steps per market
step (4), not the full resilience. -/
theorem accepted_trade_zeta_update :
    ∀ (ex : ℚ → ℚ) (s : GameState) (a : ℚ) (s' : GameState),
      executePlayerTrade ex s a = (true, s') →
      s'.zetaSeries = s.zetaSeries ++
        [ex (-(s.currentResilience / 4)) * s.zetaSeries.getLastD 0 +
         1 / max (1/10) s.currentDepth * |a|] := by
  intro ex s a s' h
  simp only [executePlayerTrade] at h
  split at h
  · simp at h
  · split at h
    · simp at h
    · split at h
      · simp at h
      · split at h <;>
        · rw [Prod.mk.injEq] at h
          rw [← h.2]

/-- C2 witness: the amended statement at the concrete accepted unit buy
from sAccept. -/
theorem accepted_trade_zeta_update_witness :
    executePlayerTrade (fun x : ℚ => 1 + x) sAccept 1 =
      (true, (executePlayerTrade (fun x : ℚ => 1 + x) sAccept 1).2) ∧
    (executePlayerTrade (fun x : ℚ => 1 + x) sAccept 1).2.zetaSeries =
      sAccept.zetaSeries ++
        [(fun x : ℚ => 1 + x) (-(sAccept.currentResilience / 4)) *
           sAccept.zetaSeries.getLastD 0 +
         1 / max (1/10) sAccept.currentDepth * |(1 : ℚ)|] := by
  have h1 : (executePlayerTrade (fun x : ℚ => 1 + x) sAccept 1).1 = true := by
    norm_num [executePlayerTrade, sAccept, sReject, valueFor, validateTrade,
      executeTrade, calculateWealth]
  have hp : executePlayerTrade (fun x : ℚ => 1 + x) sAccept 1 =
      (true, (executePlayerTrade (fun x : ℚ => 1 + x) sAccept 1).2) := by
    rw [← h1]
  exact ⟨hp, accepted_trade_zeta_update (fun x : ℚ => 1 + x) sAccept 1 _ hp⟩

/-- C3 counterexample: executePlayerTrade never consults
isInLiquidationPhase, so in the running liquidation-phase session
sLiqPhase a unit buy is accepted (returns true) rather than rejected. -/
theorem liquidation_trade_blocked_cex :
    ¬ (∀ (ex : ℚ → ℚ) (s : GameState) (a : ℚ),
        s.isInLiquidationPhase = true →
        (executePlayerTrade ex s a).1 = false ∧
        (executePlayerTrade ex s a).2 = s) := by
  intro h
  have h1 := (h (fun x : ℚ => 1 + x) sLiqPhase 1 rfl).1
  have h2 : (executePlayerTrade (fun x : ℚ => 1 + x) sLiqPhase 1).1 = true := by
    norm_num [executePlayerTrade, sLiqPhase, sReject, valueFor, validateTrade,
      executeTrade, calculateWealth]
  rw [h2] at h1
  exact absurd h1 (by simp)

/-- C3 amended: executePlayerTrade rejects exactly when the game is over,
the session is not running, the micro-time rate limit blocks the trade,
or validation fails; the liquidation phase flag plays no role, so a
player trade can be accepted during the liquidation phase. -/
theorem player_trade_reject_iff :
    ∀ (ex : ℚ → ℚ) (s : GameState) (a : ℚ),
      (executePlayerTrade ex s a).1 = false ↔
      (s.isGameOver = true ∨ s.isRunning = false ∨
       s.currentZetaTime - s.lastTradeZetaTime < 1 ∨
       validateTrade s.cash s.inventory a s.currentPrice
         (valueFor ex s.linearSpread a s.currentDepth s.currentResilience).1 =
         false) := by
  intro ex s a
  simp only [executePlayerTrade]
  split
  · next hc =>
    simp only [Bool.or_eq_true, Bool.not_eq_true'] at hc
    simp only [eq_self_iff_true, true_iff]
    rcases hc with hc | hc
    · exact Or.inl hc
    · exact Or.inr (Or.inl hc)
  · next hc =>
    simp only [Bool.or_eq_true, Bool.not_eq_true'] at hc
    push_neg at hc
    split
    · next hr =>
      simp only [eq_self_iff_true, true_iff]
      exact Or.inr (Or.inr (Or.inl hr))
    · next hr =>
      split
      · next hv =>
        simp only [Bool.not_eq_true'] at hv
        simp only [eq_self_iff_true, true_iff]
        exact Or.inr (Or.inr (Or.inr hv))
      · next hv =>
        simp only [Bool.not_eq_true', Bool.not_eq_false] at hv
        split <;>
        · simp only [Bool.true_eq_false, false_iff, not_or]
          exact ⟨hc.1, hc.2, hr, by simp [hv]⟩

/-- updateFromTime does not touch the liquidation flag. -/
theorem updateFromTime_flag (s : GameState) :
    (updateFromTime s).isInLiquidationPhase = s.isInLiquidationPhase := rfl

/-- The zeta catch-up loop does not touch the liquidation flag. -/
theorem zetaCatchUp_flag (ex : ℚ → ℚ) :
    ∀ (n : ℕ) (s : GameState),
      (zetaCatchUp ex s n).isInLiquidationPhase = s.isInLiquidationPhase := by
  intro n
  induction n with
  | zero => intro s; rfl
  | succ n ih => intro s; rw [zetaCatchUp, ih]

/-- checkLiquidationEntry keeps the liquidation flag set once it is set. -/
theorem checkLiquidationEntry_flag (s : GameState)
    (h : s.isInLiquidationPhase = true) :
    (checkLiquidationEntry s).isInLiquidationPhase = true := by
  simp [checkLiquidationEntry, h]

/-- executeLiquidationTrade does not touch the liquidation flag. -/
theorem executeLiquidationTrade_flag (ex : ℚ → ℚ) (s : GameState) (a : ℚ)
    (ci : ℤ) :
    ∀ p : Participant,
      (executeLiquidationTrade ex s a ci p).isInLiquidationPhase =
        s.isInLiquidationPhase
  | .player => rfl
  | .ai => rfl

/-- processLiquidation does not touch the liquidation flag. -/
theorem processLiquidation_flag (ex : ℚ → ℚ) (s : GameState) :
    (processLiquidation ex s).isInLiquidationPhase = s.isInLiquidationPhase := by
  simp only [processLiquidation]
  repeat' split
  all_goals simp only [executeLiquidationTrade_flag]

/-- executeAITradeAction does not touch the liquidation flag. -/
theorem executeAITradeAction_flag (ex : ℚ → ℚ) (s : GameState) (a : ℚ)
    (ci : ℤ) :
    (executeAITradeAction ex s a ci).isInLiquidationPhase =
      s.isInLiquidationPhase := by
  simp only [executeAITradeAction]
  split <;> rfl

/-- processAITrade does not touch the liquidation flag. -/
theorem processAITrade_flag (ex : ℚ → ℚ) (pw : ℚ → ℚ → ℚ) (s : GameState) :
    (processAITrade ex pw s).isInLiquidationPhase = s.isInLiquidationPhase := by
  simp only [processAITrade]
  split
  · rfl
  · split
    · rw [executeAITradeAction_flag]
    · rfl

/-- checkGameOver does not touch the liquidation flag. -/
theorem checkGameOver_flag (s : GameState) :
    (checkGameOver s).2.isInLiquidationPhase = s.isInLiquidationPhase := by
  simp only [checkGameOver]
  split
  · rfl
  · split <;> rfl

/-- advanceTime keeps the liquidation flag set once it is set. -/
theorem advanceTime_flag (ex : ℚ → ℚ) (pw : ℚ → ℚ → ℚ) (s : GameState)
    (h : s.isInLiquidationPhase = true) :
    (advanceTime ex pw s).isInLiquidationPhase = true := by
  simp only [advanceTime]
  split
  · exact h
  · rw [checkGameOver_flag]
    split
    · next hc => rw [processLiquidation_flag]; exact hc
    · next hc =>
      exact absurd
        (checkLiquidationEntry_flag _
          (by rw [zetaCatchUp_flag, updateFromTime_flag]; exact h)) hc

/-- executePlayerTrade does not touch the liquidation flag. -/
theorem executePlayerTrade_flag (ex : ℚ → ℚ) (s : GameState) (a : ℚ) :
    (executePlayerTrade ex s a).2.isInLiquidationPhase =
      s.isInLiquidationPhase := by
  simp only [executePlayerTrade]
  split
  · rfl
  · split
    · rfl
    · split
      · rfl
      · split <;> rfl

/-- C9: once a session is in the liquidation phase, no sequence of
advanceTime ticks and executePlayerTrade calls ever clears the flag:
the transition to the liquidation phase is irreversible within the
session. -/
theorem liquidation_phase_irreversible :
    ∀ (ex : ℚ → ℚ) (pw : ℚ → ℚ → ℚ) (ops : List GameOp) (s : GameState),
      s.isInLiquidationPhase = true →
      (runOps ex pw s ops).isInLiquidationPhase = true := by
  intro ex pw ops
  induction ops with
  | nil => intro s h; exact h
  | cons op ops ih =>
    intro s h
    cases op with
    | advance => exact ih _ (advanceTime_flag ex pw s h)
    | trade a => exact ih _ (by rw [executePlayerTrade_flag]; exact h)

/-- C9 witness: starting from the liquidation-phase session sLiqPhase,
an advance tick followed by a trade request leaves the flag set. -/
theorem liquidation_phase_irreversible_witness :
    sLiqPhase.isInLiquidationPhase = true ∧
    (runOps (fun x : ℚ => 1 + x) powZeroBase sLiqPhase
      [GameOp.advance, GameOp.trade 1]).isInLiquidationPhase = true :=
  ⟨rfl, liquidation_phase_irreversible (fun x : ℚ => 1 + x) powZeroBase
    [GameOp.advance, GameOp.trade 1] sLiqPhase rfl⟩
